import Mathlib

/-!
Shallow embedding of the GBA hardware-emulation kernel in `src/gba/gba.c`
(mgba). Machine integers are modelled as `Nat`/`Int` with explicit
truncation where the C types make overflow observable (the 16-bit
memory-mapped I/O registers). Pointers are modelled as `Option Nat`:
`none` is the C null pointer, `some p` an abstract buffer address, so that
pointer identity (`gba->memory.rom == gba->pristineRom`) is expressible.
External collaborators (the timing timeline, the SIO subsystem, the CPU
core's `ARMRaiseIRQ`, the virtual-file layer) are passed in as explicit
parameters or modelled from the spec where noted.
-/

/-- Execution widths of the ARM CPU (`enum ExecutionMode`): the wide ARM
encoding and the narrow Thumb encoding. -/
inductive ExecMode where
  | arm
  | thumb
deriving DecidableEq

/-- Modelled from the spec: a readable sized source (the `struct VFile`
collaborator, `util/vfs.h`, not under src/). Only its byte contents are
observable through the operations used by gba.c: `size`, `seek`, `read`,
`map`. -/
structure VFile where
  data : List Nat
deriving DecidableEq

def VFile.size (v : VFile) : Nat := v.data.length

/-- Byte at offset `i` of the backing file (reads past the end never occur
in the modelled paths because every read is length-checked first). -/
def VFile.byte (v : VFile) (i : Nat) : Nat := v.data.getD i 0

/-- The ARM CPU core collaborator (`struct ARMCore`), restricted to the
fields gba.c reads or writes: `cycles`, `nextEvent`, `halted`, the
`cpsr.i` interrupt-disable flag, the execution mode and prefetch slot used
for the bus value, the component table, and addressable memory as a byte
map. `irqsRaised` counts invocations of the external `ARMRaiseIRQ`
primitive so that interrupt delivery is observable. -/
structure ARMCore where
  cycles : Int
  nextEvent : Int
  halted : Bool
  cpsrI : Bool
  executionMode : ExecMode
  prefetch1 : Nat
  components : List Nat
  memBytes : Nat → Nat
  irqsRaised : Nat

/-- The `struct GBAMemory` fields used by gba.c, with the three 16-bit
interrupt registers of the I/O bank (`io[REG_IE >> 1]`, `io[REG_IF >> 1]`,
`io[REG_IME >> 1]`) projected out as named fields. -/
structure GBAMemory where
  rom : Option Nat
  romSize : Nat
  romMask : Nat
  mirroring : Bool
  ioIE : Nat
  ioIF : Nat
  ioIME : Nat

/-- The `struct GBA` aggregate, restricted to the fields the claims
observe. -/
structure GBA where
  cpu : ARMCore
  memory : GBAMemory
  springIRQ : Nat
  cpuBlocked : Bool
  pristineRom : Option Nat
  pristineRomSize : Nat
  yankedRomSize : Nat
  idleLoop : Nat
  romVf : Option VFile
  bus : Nat

/-- SIZE_CART0, the maximum cartridge capacity (32 MiB). Modelled from the
header `gba/memory.h` (not under src/). -/
def SIZE_CART0 : Nat := 0x02000000

/-- SIZE_WORKING_RAM, the working-memory capacity (256 KiB). Modelled from
the header `gba/memory.h` (not under src/). -/
def SIZE_WORKING_RAM : Nat := 0x00040000

/-- IDLE_LOOP_NONE sentinel for the idle-loop classification. Modelled
from the header `gba/gba.h` (not under src/). -/
def IDLE_LOOP_NONE : Nat := 0xFFFFFFFF

/-- IRQ_GAMEPAK, the cartridge-removal interrupt number of `enum GBAIRQ`.
Modelled from the header `gba/interface.h` (not under src/). -/
def IRQ_GAMEPAK : Nat := 13

/-- INT_MAX, the largest 32-bit signed value, which GBAProcessEvents
stores into `cpu->nextEvent` before re-deriving it. -/
def INT_MAX : Int := 2147483647

/-- Fuel-driven doubling loop for `toPow2`: the smallest power of two that
is at least `n`, starting the search from `p`. -/
def toPow2Go (n : Nat) : Nat → Nat → Nat
  | 0, p => p
  | fuel + 1, p => if n ≤ p then p else toPow2Go n fuel (2 * p)

/-- Modelled from the spec: `toPow2` (`util/math.h`, not under src/)
rounds its argument up to the next power of two; the spec fixes
`romMask = nextPowerOfTwo(romSize) - 1` and `romMask = 0` when
`romSize = 0`, so `toPow2 0 = 0` (with the mask subtraction taken in
`Nat`). -/
def toPow2 (n : Nat) : Nat := if n = 0 then 0 else toPow2Go n n 1

/-- Modelled from the spec: the CPU collaborator's interrupt-raise
primitive `ARMRaiseIRQ` (`arm/arm.h`, not under src/). It delivers one
interrupt to the CPU core; the embedding records the delivery count. -/
def ARMRaiseIRQ (gba : GBA) : GBA :=
  { gba with cpu.irqsRaised := gba.cpu.irqsRaised + 1 }

/-- GBAUnloadROM (gba.c line 118). The active ROM buffer is freed (no
modelled effect) only when it is non-null and differs from the pristine
buffer, and only inside that branch is `yankedRomSize` cleared; the
active pointer, the backing file handle and the pristine pointer are then
nulled, and the idle-loop classification is reset. The savedata deinit
calls touch no modelled field. -/
def GBAUnloadROM (gba : GBA) : GBA :=
  let yanked1 :=
    if gba.memory.rom ≠ none ∧ gba.pristineRom ≠ gba.memory.rom then
      (if gba.yankedRomSize ≠ 0 then 0 else gba.yankedRomSize)
    else gba.yankedRomSize
  let romVf1 := if gba.romVf.isSome then none else gba.romVf
  { gba with
      yankedRomSize := yanked1
      memory.rom := none
      romVf := romVf1
      pristineRom := none
      idleLoop := IDLE_LOOP_NONE }

/-- GBALoadROM (gba.c line 323). `pmap` is the result of the external
`vf->map` call (`none` models a mapping failure). The CRC computation,
GBAHardwareInit and GBAVFameDetect calls touch no modelled field. -/
def GBALoadROM (gba : GBA) (vf : Option VFile) (pmap : Option Nat) : GBA × Bool :=
  match vf with
  | none => (gba, false)
  | some v =>
    let gba := GBAUnloadROM gba
    let gba := { gba with romVf := some v }
    let size := if v.size > SIZE_CART0 then SIZE_CART0 else v.size
    let gba := { gba with pristineRomSize := size }
    match pmap with
    | none => ({ gba with pristineRom := none }, false)
    | some p =>
      ({ gba with
          pristineRom := some p
          yankedRomSize := 0
          memory.rom := some p
          memory.romSize := size
          memory.romMask := toPow2 size - 1
          memory.mirroring := false }, true)

/-- GBALoadMB (gba.c line 295): the multiboot pipeline clamps to the
working-memory capacity and leaves `romSize`/`romMask` zero. -/
def GBALoadMB (gba : GBA) (vf : VFile) (pmap : Option Nat) : GBA × Bool :=
  let gba := GBAUnloadROM gba
  let gba := { gba with romVf := some vf }
  let size := if vf.size > SIZE_WORKING_RAM then SIZE_WORKING_RAM else vf.size
  let gba := { gba with pristineRomSize := size }
  match pmap with
  | none => ({ gba with pristineRom := none }, false)
  | some p =>
    ({ gba with
        pristineRom := some p
        yankedRomSize := 0
        memory.romSize := 0
        memory.romMask := 0 }, true)

/-- GBARaiseIRQ (gba.c line 428): always sets the interrupt's bit in the
16-bit IF register; if the IE bit is set, clears the halted flag, and if
additionally IME is non-zero, delivers to the CPU core. -/
def GBARaiseIRQ (gba : GBA) (irq : Nat) : GBA :=
  let gba := { gba with memory.ioIF := (gba.memory.ioIF ||| (1 <<< irq)) % 65536 }
  if gba.memory.ioIE &&& (1 <<< irq) ≠ 0 then
    let gba := { gba with cpu.halted := false }
    if gba.memory.ioIME ≠ 0 then ARMRaiseIRQ gba else gba
  else gba

/-- GBAYankROM (gba.c line 364): saves `romSize` into the yanked slot,
zeroes size and mask, and raises the cartridge-removal interrupt. -/
def GBAYankROM (gba : GBA) : GBA :=
  let gba :=
    { gba with
        yankedRomSize := gba.memory.romSize
        memory.romSize := 0
        memory.romMask := 0 }
  GBARaiseIRQ gba IRQ_GAMEPAK

/-- GBAReset (gba.c line 173), restricted to the modelled fields: clears
`cpuBlocked`, and when a yanked size is pending restores `romSize` from
it, re-derives `romMask`, and clears the slot. The interrupt registers
are zeroed because GBAMemoryReset/GBAIOInit (memory.c/io.c, not under
src/) reinitialize the I/O bank; modelled from the spec: a reset discards
interrupt registers unconditionally. The remaining collaborator resets
(timing, video, audio, timers, SIO, savedata) touch no modelled field. -/
def GBAReset (gba : GBA) : GBA :=
  let gba := { gba with cpuBlocked := false }
  let gba :=
    if gba.yankedRomSize ≠ 0 then
      { gba with
          memory.romSize := gba.yankedRomSize
          memory.romMask := toPow2 gba.yankedRomSize - 1
          yankedRomSize := 0 }
    else gba
  { gba with memory.ioIE := 0, memory.ioIF := 0, memory.ioIME := 0 }

/-- A patch descriptor (`struct Patch`, `util/patch.h`, not under src/):
modelled from the spec as a collaborator producing an output size from the
current ROM size and a transform that either succeeds or fails. -/
structure Patch where
  outputSize : Nat → Nat
  applyOk : Bool

/-- GBAApplyPatch (gba.c line 396). `fresh` is the buffer returned by the
external `anonymousMemoryMap(SIZE_CART0)`. On a size failure nothing
changes; on a transform failure the new buffer is freed and the active
ROM pointer reverts to the pristine buffer; on success size is the
patched size and the mask is fixed to the full-capacity mask. -/
def GBAApplyPatch (gba : GBA) (patch : Patch) (fresh : Nat) : GBA :=
  let patchedSize := patch.outputSize gba.memory.romSize
  if patchedSize = 0 ∨ patchedSize > SIZE_CART0 then gba
  else
    let gba := { gba with memory.rom := some fresh }
    if patch.applyOk = false then
      { gba with memory.rom := gba.pristineRom }
    else
      { gba with
          memory.romSize := patchedSize
          memory.romMask := SIZE_CART0 - 1 }

/-- An initial aggregate mirroring the GBAInit defaults (gba.c line 62)
for the modelled fields, used to build concrete reachable states. -/
def GBA.initial : GBA where
  cpu :=
    { cycles := 0
      nextEvent := 0
      halted := false
      cpsrI := false
      executionMode := ExecMode.arm
      prefetch1 := 0
      components := []
      memBytes := fun _ => 0
      irqsRaised := 0 }
  memory :=
    { rom := none
      romSize := 0
      romMask := 0
      mirroring := false
      ioIE := 0
      ioIF := 0
      ioIME := 0 }
  springIRQ := 0
  cpuBlocked := false
  pristineRom := none
  pristineRomSize := 0
  yankedRomSize := 0
  idleLoop := IDLE_LOOP_NONE
  romVf := none
  bus := 0

/-- GBAWriteIE (gba.c line 412): delivers to the CPU core when IME is
non-zero and the written enable mask intersects the pending flags. The
keypad-interrupt branch only emits a stub log. The register store itself
is performed by the I/O dispatch after this check (io.c, not under src/);
modelled from the spec: `writeEnable(newMask)` maintains the IE
register. -/
def GBAWriteIE (gba : GBA) (value : Nat) : GBA :=
  let value := value % 65536
  let gba :=
    if gba.memory.ioIME ≠ 0 ∧ value &&& gba.memory.ioIF ≠ 0 then ARMRaiseIRQ gba
    else gba
  { gba with memory.ioIE := value }

/-- GBAWriteIME (gba.c line 422): delivers to the CPU core when the
written value is truthy and the enabled pending flags are non-empty. The
register store itself is performed by the I/O dispatch after this check
(io.c, not under src/); modelled from the spec: `writeMasterEnable`
maintains the IME register. -/
def GBAWriteIME (gba : GBA) (value : Nat) : GBA :=
  let value := value % 65536
  let gba :=
    if value ≠ 0 ∧ gba.memory.ioIE &&& gba.memory.ioIF ≠ 0 then ARMRaiseIRQ gba
    else gba
  { gba with memory.ioIME := value }

/-- One pass of the inner timing loop of GBAProcessEvents (gba.c line
252): a do/while that ticks the timeline, reads back `cpu->nextEvent`,
and repeats while a component reports the CPU blocked. `tick` is the
external `mTimingTick` collaborator, which may mutate any state its event
callbacks reach; fuel bounds the unmodelled termination argument and
exhaustion yields `none`. -/
def innerTick (tick : GBA → Int → GBA) : Nat → GBA → Int → Option (GBA × Int)
  | 0, _, _ => none
  | fuel + 1, gba, nextEvent =>
    let gba := tick gba nextEvent
    let nextEvent := gba.cpu.nextEvent
    if gba.cpuBlocked then innerTick tick fuel gba nextEvent
    else some (gba, nextEvent)

/-- One iteration of the outer do/while of GBAProcessEvents (gba.c lines
239 to 278). `sioStep` is the external GBASIOProcessEvents collaborator,
returning the mutated state and its next-event distance. The returned
flag is `true` when the iteration leaves the loop (an explicit `break`,
or the `cycles >= nextEvent` guard failing). The NDEBUG fatal logs have
no state effect. -/
def processEventsIter (tick : GBA → Int → GBA) (sioStep : GBA → Int → GBA × Int)
    (fuel : Nat) (gba : GBA) : Option (GBA × Bool) :=
  let cycles := gba.cpu.cycles
  let gba := { gba with cpu.cycles := 0, cpu.nextEvent := INT_MAX }
  match innerTick tick fuel gba cycles with
  | none => none
  | some (g1, ne1) =>
    let p := sioStep g1 cycles
    let g2 := p.1
    let testEvent := p.2
    let nextEvent := if testEvent < ne1 then testEvent else ne1
    let g2 := { g2 with cpu.nextEvent := nextEvent }
    if nextEvent = 0 then some (g2, true)
    else if g2.cpu.halted then
      let g3 := { g2 with cpu.cycles := nextEvent }
      if g3.memory.ioIME = 0 ∨ g3.memory.ioIE = 0 then some (g3, true)
      else some (g3, decide (g3.cpu.cycles < nextEvent))
    else some (g2, decide (g2.cpu.cycles < nextEvent))

/-- The outer do/while of GBAProcessEvents, iterating `processEventsIter`
until an iteration reports leaving the loop; fuel bounds the unmodelled
termination argument. -/
def processEventsLoop (tick : GBA → Int → GBA) (sioStep : GBA → Int → GBA × Int)
    (fuelInner : Nat) : Nat → GBA → Option GBA
  | 0, _ => none
  | fuel + 1, gba =>
    match processEventsIter tick sioStep fuelInner gba with
    | none => none
    | some (g, true) => some g
    | some (g, false) => processEventsLoop tick sioStep fuelInner fuel g

/-- GBAProcessEvents (gba.c line 225): the prologue latches the bus value
from the prefetch slot, fires a deferred spring IRQ once the CPU's
interrupt-disable flag is clear, and then the event loop runs. -/
def GBAProcessEvents (tick : GBA → Int → GBA) (sioStep : GBA → Int → GBA × Int)
    (fuelInner fuelOuter : Nat) (gba : GBA) : Option GBA :=
  let busVal :=
    if gba.cpu.executionMode = ExecMode.thumb then
      gba.cpu.prefetch1 ||| (gba.cpu.prefetch1 <<< 16)
    else gba.cpu.prefetch1
  let gba := { gba with bus := busVal }
  let gba :=
    if gba.springIRQ ≠ 0 ∧ gba.cpu.cpsrI = false then
      { ARMRaiseIRQ gba with springIRQ := 0 }
    else gba
  processEventsLoop tick sioStep fuelInner fuelOuter gba

/-- GBAIsBIOS (gba.c line 520): seeks to offset 0, reads the seven
4-byte interrupt-vector slots (a short read fails), and requires each
slot's byte 3 to be 0xEA and byte 2 to be zero. -/
def GBAIsBIOS (vf : VFile) : Bool :=
  if vf.size < 28 then false
  else (List.range 7).all fun i =>
    (vf.byte (4 * i + 3) == 0xEA) && (vf.byte (4 * i + 2) == 0)

/-- GBAIsROM (gba.c line 473): seeks to the magic offset 3, reads one
byte (a short file fails), excludes anything that also matches the BIOS
signature, and compares the byte against the ROM magic 0xEA. -/
def GBAIsROM (vf : VFile) : Bool :=
  if vf.size < 4 then false
  else if GBAIsBIOS vf then false
  else vf.byte 3 == 0xEA

/-- Modelled from the spec: GBAPatch32 (memory.c, not under src/) reads
back the previous 32-bit little-endian word at the address. -/
def read32 (mem : Nat → Nat) (a : Nat) : Nat :=
  mem a + mem (a + 1) * 256 + mem (a + 2) * 65536 + mem (a + 3) * 16777216

/-- Modelled from the spec: GBAPatch32 (memory.c, not under src/) stores
the new opcode's four bytes little-endian at the address. -/
def write32 (mem : Nat → Nat) (a v : Nat) : Nat → Nat := fun x =>
  if x = a then v % 256
  else if x = a + 1 then v / 256 % 256
  else if x = a + 2 then v / 65536 % 256
  else if x = a + 3 then v / 16777216 % 256
  else mem x

/-- Modelled from the spec: GBAPatch16 (memory.c, not under src/) reads
back the previous 16-bit little-endian halfword at the address. -/
def read16 (mem : Nat → Nat) (a : Nat) : Nat :=
  mem a + mem (a + 1) * 256

/-- Modelled from the spec: GBAPatch16 (memory.c, not under src/) stores
the new opcode's two bytes little-endian at the address (the `int16_t`
parameter truncates wider values). -/
def write16 (mem : Nat → Nat) (a v : Nat) : Nat → Nat := fun x =>
  if x = a then v % 256
  else if x = a + 1 then v / 256 % 256
  else mem x

/-- GBASetBreakpoint (gba.c line 675): resolves the component handle to
its slot in the CPU component table (silently doing nothing when absent,
returning `none` in place of the unwritten `*opcode`), builds the trap
opcode carrying the slot index for the requested width, writes it, and
returns the captured previous opcode. -/
def GBASetBreakpoint (gba : GBA) (component : Nat) (address : Nat)
    (mode : ExecMode) : GBA × Option Nat :=
  match gba.cpu.components.findIdx? (fun c => c = component) with
  | none => (gba, none)
  | some immediate =>
    match mode with
    | ExecMode.arm =>
      let value := 0xE1200070 ||| (immediate &&& 0xF) ||| ((immediate &&& 0xFFF0) <<< 4)
      let old := read32 gba.cpu.memBytes address
      ({ gba with cpu.memBytes := write32 gba.cpu.memBytes address value }, some old)
    | ExecMode.thumb =>
      let value := 0xBE00 ||| (immediate &&& 0xFF)
      let old := read16 gba.cpu.memBytes address
      ({ gba with cpu.memBytes := write16 gba.cpu.memBytes address value }, some old)

/-- GBAClearBreakpoint (gba.c line 703): writes the captured original
opcode back at the address for the given width. -/
def GBAClearBreakpoint (gba : GBA) (address : Nat) (mode : ExecMode)
    (opcode : Nat) : GBA :=
  match mode with
  | ExecMode.arm => { gba with cpu.memBytes := write32 gba.cpu.memBytes address opcode }
  | ExecMode.thumb => { gba with cpu.memBytes := write16 gba.cpu.memBytes address opcode }

/-- A four-byte file whose byte at the ROM magic offset 3 is 0xEA, used
to build concrete reachable states. -/
def vfSmall : VFile := ⟨[0, 0, 0, 0xEA]⟩

/-- State after successfully loading `vfSmall` (pristine buffer 1). -/
def gLoaded : GBA := (GBALoadROM GBA.initial (some vfSmall) (some 1)).1

/-- A patch whose transform succeeds, producing a 4-byte output. -/
def patchGood : Patch := ⟨fun _ => 4, true⟩

/-- A patch whose transform fails after a valid output-size computation. -/
def patchBad : Patch := ⟨fun _ => 4, false⟩

/-- A patch whose output-size computation returns zero. -/
def patchZero : Patch := ⟨fun _ => 0, true⟩

/-- State after a successful patch on `gLoaded` (patched buffer 2). -/
def gPatched : GBA := GBAApplyPatch gLoaded patchGood 2

/-- C1 counterexample: from the reachable state `gPatched` (a successful
load followed by a successful patch, so the active ROM pointer 2 differs
from the pristine pointer 1), a patch whose transform fails reverts the
active ROM pointer to the pristine buffer 1, not to its pre-call value 2,
refuting bit-for-bit restoration of `memory.rom` for every prior state. -/
theorem patch_failure_atomicity_cex :
    patchBad.outputSize gPatched.memory.romSize ≠ 0 ∧
    patchBad.outputSize gPatched.memory.romSize ≤ SIZE_CART0 ∧
    patchBad.applyOk = false ∧
    gPatched.memory.rom = some 2 ∧
    (GBAApplyPatch gPatched patchBad 3).memory.rom = some 1 ∧
    (GBAApplyPatch gPatched patchBad 3).memory.rom ≠ gPatched.memory.rom := by
  decide

/-- C1 (amended): a size failure of GBAApplyPatch leaves the whole state
unchanged; a transform failure leaves `romSize` and `romMask` unchanged
and reverts the active ROM pointer to the pristine buffer, which equals
its pre-call value exactly when the pre-call ROM was the pristine
mapping. -/
theorem patch_failure_partial_atomicity (g : GBA) (patch : Patch) (fresh : Nat) :
    (patch.outputSize g.memory.romSize = 0 ∨
        patch.outputSize g.memory.romSize > SIZE_CART0 →
      GBAApplyPatch g patch fresh = g) ∧
    (¬(patch.outputSize g.memory.romSize = 0 ∨
        patch.outputSize g.memory.romSize > SIZE_CART0) →
      patch.applyOk = false →
      (GBAApplyPatch g patch fresh).memory.romSize = g.memory.romSize ∧
      (GBAApplyPatch g patch fresh).memory.romMask = g.memory.romMask ∧
      (GBAApplyPatch g patch fresh).memory.rom = g.pristineRom ∧
      (g.memory.rom = g.pristineRom →
        (GBAApplyPatch g patch fresh).memory.rom = g.memory.rom)) := by
  constructor
  · intro h
    simp [GBAApplyPatch, h]
  · intro h hfail
    simp [GBAApplyPatch, h, hfail]
    exact fun h' => h'.symm

/-- C1 witness: the amended theorem applied at a concrete size failure. -/
theorem patch_failure_partial_atomicity_witness :
    (patchZero.outputSize GBA.initial.memory.romSize = 0 ∨
      patchZero.outputSize GBA.initial.memory.romSize > SIZE_CART0) ∧
    GBAApplyPatch GBA.initial patchZero 9 = GBA.initial :=
  ⟨Or.inl rfl, (patch_failure_partial_atomicity GBA.initial patchZero 9).1 (Or.inl rfl)⟩

/-- C2 counterexample: after the successful patch reaching `gPatched`,
`romSize` is 4 but `romMask` is the full-capacity mask SIZE_CART0 - 1,
not `toPow2 4 - 1 = 3`, refuting the size-derived-mask claim for
successful patches. -/
theorem romMask_invariant_cex :
    patchGood.applyOk = true ∧
    gPatched.memory.romSize = 4 ∧
    gPatched.memory.romMask = SIZE_CART0 - 1 ∧
    toPow2 gPatched.memory.romSize - 1 = 3 ∧
    gPatched.memory.romMask ≠ toPow2 gPatched.memory.romSize - 1 := by
  decide

/-- C2 (amended): after a successful GBALoadROM the mask is the
next-power-of-two mask of the size; after a successful GBAApplyPatch the
mask is fixed to the full-capacity mask SIZE_CART0 - 1; after GBAYankROM
and after a successful GBALoadMB the size and the mask are both zero. -/
theorem romMask_invariant (g : GBA) (vf : VFile) (p : Nat) (patch : Patch)
    (fresh : Nat) (mb : VFile) (q : Nat) :
    ((GBALoadROM g (some vf) (some p)).2 = true ∧
      (GBALoadROM g (some vf) (some p)).1.memory.romMask =
        toPow2 (GBALoadROM g (some vf) (some p)).1.memory.romSize - 1) ∧
    (¬(patch.outputSize g.memory.romSize = 0 ∨
        patch.outputSize g.memory.romSize > SIZE_CART0) →
      patch.applyOk = true →
      (GBAApplyPatch g patch fresh).memory.romMask = SIZE_CART0 - 1) ∧
    ((GBAYankROM g).memory.romSize = 0 ∧ (GBAYankROM g).memory.romMask = 0) ∧
    ((GBALoadMB g mb (some q)).2 = true ∧
      (GBALoadMB g mb (some q)).1.memory.romSize = 0 ∧
      (GBALoadMB g mb (some q)).1.memory.romMask = 0) := by
  refine ⟨⟨rfl, rfl⟩, ?_, ?_, ⟨rfl, rfl, rfl⟩⟩
  · intro h hok
    simp [GBAApplyPatch, h, hok]
  · unfold GBAYankROM GBARaiseIRQ ARMRaiseIRQ
    dsimp only
    split
    · split
      · exact ⟨rfl, rfl⟩
      · exact ⟨rfl, rfl⟩
    · exact ⟨rfl, rfl⟩

/-- C2 witness: the amended theorem's patch clause applied at the
concrete successful patch reaching `gPatched`. -/
theorem romMask_invariant_witness :
    ¬(patchGood.outputSize gLoaded.memory.romSize = 0 ∨
        patchGood.outputSize gLoaded.memory.romSize > SIZE_CART0) ∧
    gPatched.memory.romMask = SIZE_CART0 - 1 :=
  ⟨by decide,
    (romMask_invariant gLoaded vfSmall 1 patchGood 2 vfSmall 1).2.1 (by decide) rfl⟩

/-- C6 (confirmed): after a successful ROM load (which the modelled
mapping `some p` always makes succeed) followed by GBAYankROM, GBAReset
restores `romSize` to its pre-yank value, re-derives `romMask` as the
next-power-of-two mask of that size, and clears the yanked-size slot. -/
theorem yank_reset_roundtrip (g : GBA) (vf : VFile) (p : Nat) :
    (GBALoadROM g (some vf) (some p)).2 = true ∧
    (GBAReset (GBAYankROM (GBALoadROM g (some vf) (some p)).1)).memory.romSize =
      (GBALoadROM g (some vf) (some p)).1.memory.romSize ∧
    (GBAReset (GBAYankROM (GBALoadROM g (some vf) (some p)).1)).memory.romMask =
      toPow2 (GBALoadROM g (some vf) (some p)).1.memory.romSize - 1 ∧
    (GBAReset (GBAYankROM (GBALoadROM g (some vf) (some p)).1)).yankedRomSize = 0 := by
  refine ⟨rfl, ?_⟩
  unfold GBALoadROM GBAUnloadROM GBAYankROM GBARaiseIRQ ARMRaiseIRQ GBAReset
  dsimp only
  by_cases hs : (if vf.size > SIZE_CART0 then SIZE_CART0 else vf.size) = 0
  · simp only [hs]
    split
    · split
      · simp [toPow2]
      · simp [toPow2]
    · simp [toPow2]
  · split
    · split
      · simp [hs]
      · simp [hs]
    · simp [hs]

/-- C7 counterexample: load then yank reaches a state where the active
ROM equals the pristine mapping and the yanked slot holds 4; GBAUnloadROM
then skips the patched-copy branch, so the yanked-size slot survives the
unload non-zero, refuting the unconditional clearing claim. -/
theorem unload_postcondition_cex :
    (GBAYankROM gLoaded).memory.rom = (GBAYankROM gLoaded).pristineRom ∧
    (GBAYankROM gLoaded).yankedRomSize = 4 ∧
    (GBAUnloadROM (GBAYankROM gLoaded)).yankedRomSize = 4 ∧
    (GBAUnloadROM (GBAYankROM gLoaded)).yankedRomSize ≠ 0 := by
  decide

/-- C7 (amended): after GBAUnloadROM the active and pristine ROM pointers
are null and the idle-loop classification is reset, in every prior state;
the yanked-size slot, however, is cleared only when the active ROM was a
freed patched copy (non-null and different from the pristine buffer), and
otherwise keeps its prior value. -/
theorem unload_postcondition (g : GBA) :
    (GBAUnloadROM g).memory.rom = none ∧
    (GBAUnloadROM g).pristineRom = none ∧
    (GBAUnloadROM g).idleLoop = IDLE_LOOP_NONE ∧
    (g.memory.rom ≠ none ∧ g.pristineRom ≠ g.memory.rom →
      (GBAUnloadROM g).yankedRomSize = 0) ∧
    (¬(g.memory.rom ≠ none ∧ g.pristineRom ≠ g.memory.rom) →
      (GBAUnloadROM g).yankedRomSize = g.yankedRomSize) := by
  refine ⟨rfl, rfl, rfl, ?_, ?_⟩
  · intro h
    simp only [GBAUnloadROM, if_pos h]
    split
    · rfl
    · simp_all
  · intro h
    simp only [GBAUnloadROM, if_neg h]

/-- C7 witness: the amended theorem applied at the initial state, where
no patched copy exists and the yanked slot is untouched. -/
theorem unload_postcondition_witness :
    ¬(GBA.initial.memory.rom ≠ none ∧
        GBA.initial.pristineRom ≠ GBA.initial.memory.rom) ∧
    (GBAUnloadROM GBA.initial).yankedRomSize = GBA.initial.yankedRomSize :=
  ⟨by decide, (unload_postcondition GBA.initial).2.2.2.2 (by decide)⟩

/-- Characterisation of the C truthiness test `x & (1 << b)`: the
conjunction with a single shifted bit is non-zero exactly when that bit
of `x` is set. -/
theorem and_bit_ne_zero_iff (x b : Nat) :
    (x &&& (1 <<< b) ≠ 0) ↔ x.testBit b = true := by
  rw [Nat.one_shiftLeft]
  constructor
  · intro h
    by_contra hb
    refine h (Nat.eq_of_testBit_eq fun i => ?_)
    rcases eq_or_ne i b with rfl | hib
    · simp [Nat.testBit_and, Nat.testBit_two_pow]
      simpa using hb
    · simp [Nat.testBit_and, Nat.testBit_two_pow, (Ne.symm hib)]
  · intro h hx
    have hbit : (x &&& 2 ^ b).testBit b = true := by
      simp [Nat.testBit_and, Nat.testBit_two_pow, h]
    rw [hx] at hbit
    simp at hbit

/-- A number with a set bit is non-zero. -/
theorem ne_zero_of_testBit {x : Nat} (b : Nat) (h : x.testBit b = true) :
    x ≠ 0 := by
  intro hx
  rw [hx] at h
  simp at h

/-- Truncation to the 16-bit register width preserves the low 16 bits. -/
theorem testBit_mod_65536 (x b : Nat) (hb : b < 16) :
    (x % 65536).testBit b = x.testBit b := by
  have h : (65536 : Nat) = 2 ^ 16 := by norm_num
  rw [h, Nat.testBit_mod_two_pow]
  simp [hb]

/-- Field-level description of GBAWriteIE: the IE register takes the
truncated written value, the other registers are untouched, and a
delivery happens exactly when IME is non-zero and the written mask
intersects the pending flags; the halted flag is never touched. -/
theorem GBAWriteIE_fields (g : GBA) (v : Nat) :
    (GBAWriteIE g v).memory.ioIE = v % 65536 ∧
    (GBAWriteIE g v).memory.ioIF = g.memory.ioIF ∧
    (GBAWriteIE g v).memory.ioIME = g.memory.ioIME ∧
    (GBAWriteIE g v).cpu.irqsRaised =
      (if g.memory.ioIME ≠ 0 ∧ (v % 65536) &&& g.memory.ioIF ≠ 0
       then g.cpu.irqsRaised + 1 else g.cpu.irqsRaised) ∧
    (GBAWriteIE g v).cpu.halted = g.cpu.halted := by
  unfold GBAWriteIE ARMRaiseIRQ
  dsimp only
  split
  · rename_i h
    exact ⟨rfl, rfl, rfl, by simp [h], rfl⟩
  · rename_i h
    exact ⟨rfl, rfl, rfl, by simp [h], rfl⟩

/-- Field-level description of GBAWriteIME: the IME register takes the
truncated written value, the other registers are untouched, and a
delivery happens exactly when the written value is truthy and the enabled
pending flags are non-empty; the halted flag is never touched. -/
theorem GBAWriteIME_fields (g : GBA) (v : Nat) :
    (GBAWriteIME g v).memory.ioIME = v % 65536 ∧
    (GBAWriteIME g v).memory.ioIE = g.memory.ioIE ∧
    (GBAWriteIME g v).memory.ioIF = g.memory.ioIF ∧
    (GBAWriteIME g v).cpu.irqsRaised =
      (if v % 65536 ≠ 0 ∧ g.memory.ioIE &&& g.memory.ioIF ≠ 0
       then g.cpu.irqsRaised + 1 else g.cpu.irqsRaised) ∧
    (GBAWriteIME g v).cpu.halted = g.cpu.halted := by
  unfold GBAWriteIME ARMRaiseIRQ
  dsimp only
  split
  · rename_i h
    exact ⟨rfl, rfl, rfl, by simp [h], rfl⟩
  · rename_i h
    exact ⟨rfl, rfl, rfl, by simp [h], rfl⟩

/-- Field-level description of GBARaiseIRQ: the interrupt's bit is OR-ed
into the truncated IF register, IE and IME are untouched, a delivery
happens exactly when both the IE bit and IME hold, and the halted flag is
cleared exactly when the IE bit holds. -/
theorem GBARaiseIRQ_fields (g : GBA) (irq : Nat) :
    (GBARaiseIRQ g irq).memory.ioIF = (g.memory.ioIF ||| (1 <<< irq)) % 65536 ∧
    (GBARaiseIRQ g irq).memory.ioIE = g.memory.ioIE ∧
    (GBARaiseIRQ g irq).memory.ioIME = g.memory.ioIME ∧
    (GBARaiseIRQ g irq).cpu.irqsRaised =
      (if g.memory.ioIE &&& (1 <<< irq) ≠ 0 ∧ g.memory.ioIME ≠ 0
       then g.cpu.irqsRaised + 1 else g.cpu.irqsRaised) ∧
    (GBARaiseIRQ g irq).cpu.halted =
      (if g.memory.ioIE &&& (1 <<< irq) ≠ 0 then false else g.cpu.halted) := by
  unfold GBARaiseIRQ ARMRaiseIRQ
  dsimp only
  split
  · rename_i h
    split
    · rename_i h2
      exact ⟨rfl, rfl, rfl, by simp [h, h2], by simp [h]⟩
    · rename_i h2
      exact ⟨rfl, rfl, rfl, by simp [h, h2], by simp [h]⟩
  · rename_i h
    exact ⟨rfl, rfl, rfl, by simp [h], by simp [h]⟩

/-- The completed-delivery precondition of claim C4: master enable
non-zero, the enable bit and the flag bit of interrupt `b` both set. -/
def tripleSet (g : GBA) (b : Nat) : Prop :=
  g.memory.ioIME ≠ 0 ∧ g.memory.ioIE.testBit b = true ∧ g.memory.ioIF.testBit b = true

/-- C4 (confirmed): for every interrupt bit, whichever of GBAWriteIE,
GBAWriteIME and GBARaiseIRQ completes the state in which the master
enable is non-zero and both the enable bit and the flag bit are set,
that completing operation itself delivers to the CPU core (ARMRaiseIRQ
is invoked by that very write). -/
theorem irq_delivery_completes_triple (g : GBA) (b v irq : Nat)
    (hb : b < 16) :
    (¬tripleSet g b → tripleSet (GBAWriteIE g v) b →
      (GBAWriteIE g v).cpu.irqsRaised = g.cpu.irqsRaised + 1) ∧
    (¬tripleSet g b → tripleSet (GBAWriteIME g v) b →
      (GBAWriteIME g v).cpu.irqsRaised = g.cpu.irqsRaised + 1) ∧
    (¬tripleSet g b → tripleSet (GBARaiseIRQ g irq) b →
      (GBARaiseIRQ g irq).cpu.irqsRaised = g.cpu.irqsRaised + 1) := by
  obtain ⟨hie₁, hif₁, hime₁, hr₁, -⟩ := GBAWriteIE_fields g v
  obtain ⟨hime₂, hie₂, hif₂, hr₂, -⟩ := GBAWriteIME_fields g v
  obtain ⟨hif₃, hie₃, hime₃, hr₃, -⟩ := GBARaiseIRQ_fields g irq
  refine ⟨?_, ?_, ?_⟩
  · intro _ htrip
    obtain ⟨hIME, hIE, hIF⟩ := htrip
    rw [hime₁] at hIME
    rw [hie₁] at hIE
    rw [hif₁] at hIF
    rw [hr₁, if_pos]
    refine ⟨hIME, ne_zero_of_testBit b ?_⟩
    rw [Nat.testBit_and, hIE, hIF]
    rfl
  · intro _ htrip
    obtain ⟨hIME, hIE, hIF⟩ := htrip
    rw [hime₂] at hIME
    rw [hie₂] at hIE
    rw [hif₂] at hIF
    rw [hr₂, if_pos]
    refine ⟨hIME, ne_zero_of_testBit b ?_⟩
    rw [Nat.testBit_and, hIE, hIF]
    rfl
  · intro hnot htrip
    obtain ⟨hIME, hIE, hIF⟩ := htrip
    rw [hime₃] at hIME
    rw [hie₃] at hIE
    rw [hif₃] at hIF
    have hIFold : g.memory.ioIF.testBit b = false := by
      by_contra hc
      exact hnot ⟨hIME, hIE, by simpa using hc⟩
    have hbi : irq = b := by
      rw [testBit_mod_65536 _ _ hb, Nat.testBit_or, hIFold, Nat.one_shiftLeft,
        Nat.testBit_two_pow] at hIF
      simpa using hIF
    rw [hr₃, if_pos]
    refine ⟨?_, hIME⟩
    rw [and_bit_ne_zero_iff, hbi]
    exact hIE

/-- C4 witness: the completing GBAWriteIME on a state with the enable and
flag bits of interrupt 3 already set delivers at that write. -/
theorem irq_delivery_completes_triple_witness :
    (8 : Nat) < 16 ∧ (3 : Nat) < 16 ∧
    ¬tripleSet { GBA.initial with memory.ioIE := 8, memory.ioIF := 8 } 3 ∧
    tripleSet (GBAWriteIME { GBA.initial with memory.ioIE := 8, memory.ioIF := 8 } 1) 3 ∧
    (GBAWriteIME { GBA.initial with memory.ioIE := 8, memory.ioIF := 8 } 1).cpu.irqsRaised =
      { GBA.initial with memory.ioIE := 8, memory.ioIF := 8 }.cpu.irqsRaised + 1 := by
  refine ⟨by decide, by decide, ?_, ?_, ?_⟩
  · intro h
    exact absurd rfl h.1
  · exact ⟨by decide, by decide, by decide⟩
  · exact (irq_delivery_completes_triple
        { GBA.initial with memory.ioIE := 8, memory.ioIF := 8 } 3 1 0
        (by decide)).2.1
      (fun h => absurd rfl h.1) ⟨by decide, by decide, by decide⟩

/-- C5 (confirmed): GBARaiseIRQ always sets the interrupt's flag bit;
when the enable bit is set it clears the halted flag unconditionally; it
delivers to the CPU core exactly once per call if and only if
additionally IME is non-zero; and raising with the enable bit set but IME
zero unhalts without delivering, after which any truthy GBAWriteIME
delivers immediately. -/
theorem raise_irq_semantics (g : GBA) (irq v : Nat) (hirq : irq < 16) :
    (GBARaiseIRQ g irq).memory.ioIF.testBit irq = true ∧
    (g.memory.ioIE.testBit irq = true → (GBARaiseIRQ g irq).cpu.halted = false) ∧
    (GBARaiseIRQ g irq).cpu.irqsRaised =
      (if g.memory.ioIE.testBit irq = true ∧ g.memory.ioIME ≠ 0
       then g.cpu.irqsRaised + 1 else g.cpu.irqsRaised) ∧
    (g.memory.ioIE.testBit irq = true → g.memory.ioIME = 0 →
      (GBARaiseIRQ g irq).cpu.halted = false ∧
      (GBARaiseIRQ g irq).cpu.irqsRaised = g.cpu.irqsRaised ∧
      (v % 65536 ≠ 0 →
        (GBAWriteIME (GBARaiseIRQ g irq) v).cpu.irqsRaised =
          (GBARaiseIRQ g irq).cpu.irqsRaised + 1)) := by
  obtain ⟨hif₃, hie₃, hime₃, hr₃, hh₃⟩ := GBARaiseIRQ_fields g irq
  have hflag : (GBARaiseIRQ g irq).memory.ioIF.testBit irq = true := by
    rw [hif₃, testBit_mod_65536 _ _ hirq, Nat.testBit_or, Nat.one_shiftLeft,
      Nat.testBit_two_pow]
    simp
  refine ⟨hflag, ?_, ?_, ?_⟩
  · intro hIE
    rw [hh₃, if_pos ((and_bit_ne_zero_iff _ _).mpr hIE)]
  · by_cases hIE : g.memory.ioIE.testBit irq = true
    · rw [hr₃]
      by_cases hIME : g.memory.ioIME ≠ 0
      · rw [if_pos ⟨(and_bit_ne_zero_iff _ _).mpr hIE, hIME⟩, if_pos ⟨hIE, hIME⟩]
      · rw [if_neg fun hc => hIME hc.2, if_neg fun hc => hIME hc.2]
    · rw [hr₃, if_neg fun hc => hIE ((and_bit_ne_zero_iff _ _).mp hc.1),
        if_neg fun hc => hIE hc.1]
  · intro hIE hIME
    have hhalt : (GBARaiseIRQ g irq).cpu.halted = false := by
      rw [hh₃, if_pos ((and_bit_ne_zero_iff _ _).mpr hIE)]
    have hnod : (GBARaiseIRQ g irq).cpu.irqsRaised = g.cpu.irqsRaised := by
      rw [hr₃, if_neg fun hc => hc.2 hIME]
    refine ⟨hhalt, hnod, ?_⟩
    intro hv
    obtain ⟨-, -, -, hr₂, -⟩ := GBAWriteIME_fields (GBARaiseIRQ g irq) v
    rw [hr₂, if_pos]
    refine ⟨hv, ne_zero_of_testBit irq ?_⟩
    rw [Nat.testBit_and, hie₃, hIE, hflag]
    rfl

/-- C5 witness: raising interrupt 3 with enable bit 3 set and IME zero on
a halted state unhalts without delivering; writing IME 1 then delivers. -/
theorem raise_irq_semantics_witness :
    (3 : Nat) < 16 ∧
    { GBA.initial with cpu.halted := true, memory.ioIE := 8 }.memory.ioIE.testBit 3 = true ∧
    { GBA.initial with cpu.halted := true, memory.ioIE := 8 }.memory.ioIME = 0 ∧
    (1 : Nat) % 65536 ≠ 0 ∧
    ((GBARaiseIRQ { GBA.initial with cpu.halted := true, memory.ioIE := 8 } 3).cpu.halted = false ∧
      (GBARaiseIRQ { GBA.initial with cpu.halted := true, memory.ioIE := 8 } 3).cpu.irqsRaised =
        { GBA.initial with cpu.halted := true, memory.ioIE := 8 }.cpu.irqsRaised ∧
      ((1 : Nat) % 65536 ≠ 0 →
        (GBAWriteIME (GBARaiseIRQ { GBA.initial with cpu.halted := true, memory.ioIE := 8 } 3) 1).cpu.irqsRaised =
          (GBARaiseIRQ { GBA.initial with cpu.halted := true, memory.ioIE := 8 } 3).cpu.irqsRaised + 1)) :=
  ⟨by decide, by decide, rfl, by decide,
    (raise_irq_semantics { GBA.initial with cpu.halted := true, memory.ioIE := 8 } 3 1
        (by decide)).2.2.2 (by decide) rfl⟩

/-- C10 (confirmed): GBAWriteIE and GBAWriteIME never modify the CPU
halted flag for any written value (they at most deliver to the CPU
core); among the interrupt-controller operations only GBARaiseIRQ clears
the halted flag, and it does so exactly when the corresponding enable
bit is set. -/
theorem ie_ime_writes_preserve_halted (g : GBA) (v irq : Nat) :
    (GBAWriteIE g v).cpu.halted = g.cpu.halted ∧
    (GBAWriteIME g v).cpu.halted = g.cpu.halted ∧
    (g.memory.ioIE &&& (1 <<< irq) = 0 →
      (GBARaiseIRQ g irq).cpu.halted = g.cpu.halted) ∧
    (g.memory.ioIE &&& (1 <<< irq) ≠ 0 →
      (GBARaiseIRQ g irq).cpu.halted = false) := by
  obtain ⟨-, -, -, -, hh₁⟩ := GBAWriteIE_fields g v
  obtain ⟨-, -, -, -, hh₂⟩ := GBAWriteIME_fields g v
  obtain ⟨-, -, -, -, hh₃⟩ := GBARaiseIRQ_fields g irq
  refine ⟨hh₁, hh₂, ?_, ?_⟩
  · intro h
    rw [hh₃, if_neg (fun hc => hc h)]
  · intro h
    rw [hh₃, if_pos h]

/-- C10 witness: on a halted state with IE zero, writing IE and IME with
a pending flagged interrupt and raising an unenabled interrupt all leave
the halted flag set. -/
theorem ie_ime_writes_preserve_halted_witness :
    (GBAWriteIE { GBA.initial with cpu.halted := true, memory.ioIF := 8 } 8).cpu.halted =
      { GBA.initial with cpu.halted := true, memory.ioIF := 8 }.cpu.halted ∧
    (GBAWriteIME { GBA.initial with cpu.halted := true, memory.ioIF := 8 } 1).cpu.halted =
      { GBA.initial with cpu.halted := true, memory.ioIF := 8 }.cpu.halted ∧
    { GBA.initial with cpu.halted := true, memory.ioIF := 8 }.memory.ioIE &&& (1 <<< 3) = 0 ∧
    (GBARaiseIRQ { GBA.initial with cpu.halted := true, memory.ioIF := 8 } 3).cpu.halted =
      { GBA.initial with cpu.halted := true, memory.ioIF := 8 }.cpu.halted :=
  ⟨(ie_ime_writes_preserve_halted { GBA.initial with cpu.halted := true, memory.ioIF := 8 } 8 3).1,
    (ie_ime_writes_preserve_halted { GBA.initial with cpu.halted := true, memory.ioIF := 8 } 1 3).2.1,
    by decide,
    (ie_ime_writes_preserve_halted { GBA.initial with cpu.halted := true, memory.ioIF := 8 } 8 3).2.2.1
      (by decide)⟩

/-- C8 (confirmed): the BIOS signature check excludes the ROM check — for
every input file, if GBAIsBIOS accepts it then GBAIsROM rejects it, even
when the byte at the ROM magic offset 3 is 0xEA. -/
theorem bios_rom_mutual_exclusion (vf : VFile) (h : GBAIsBIOS vf = true) :
    GBAIsROM vf = false := by
  unfold GBAIsROM
  split
  · rfl
  · simp [h]

/-- A 28-byte BIOS-shaped file whose every vector slot has byte 3 equal
to 0xEA and byte 2 equal to 0; its byte at offset 3 coincides with the
ROM magic. -/
def vfBios : VFile :=
  ⟨[0, 0, 0, 0xEA, 0, 0, 0, 0xEA, 0, 0, 0, 0xEA, 0, 0, 0, 0xEA,
    0, 0, 0, 0xEA, 0, 0, 0, 0xEA, 0, 0, 0, 0xEA]⟩

/-- C8 witness: the mutual-exclusion theorem applied at a concrete BIOS
image whose byte at offset 3 equals the ROM magic 0xEA. -/
theorem bios_rom_mutual_exclusion_witness :
    GBAIsBIOS vfBios = true ∧ vfBios.byte 3 = 0xEA ∧ GBAIsROM vfBios = false :=
  ⟨by decide, by decide, bios_rom_mutual_exclusion vfBios (by decide)⟩

/-- Writing back the captured 32-bit word restores all four bytes, and
every other byte is untouched, provided the memory holds bytes. -/
theorem write32_restore (mem : Nat → Nat) (a v x : Nat)
    (h : ∀ y, mem y < 256) :
    write32 (write32 mem a v) a (read32 mem a) x = mem x := by
  have h0 := h a
  have h1 := h (a + 1)
  have h2 := h (a + 2)
  have h3 := h (a + 3)
  simp only [write32, read32]
  by_cases e0 : x = a
  · subst e0
    simp
    omega
  · by_cases e1 : x = a + 1
    · subst e1
      rw [if_neg e0, if_pos rfl]
      omega
    · by_cases e2 : x = a + 2
      · subst e2
        rw [if_neg e0, if_neg e1, if_pos rfl]
        omega
      · by_cases e3 : x = a + 3
        · subst e3
          rw [if_neg e0, if_neg e1, if_neg e2, if_pos rfl]
          omega
        · rw [if_neg e0, if_neg e1, if_neg e2, if_neg e3,
            if_neg e0, if_neg e1, if_neg e2, if_neg e3]

/-- Writing back the captured 16-bit halfword restores both bytes, and
every other byte is untouched, provided the memory holds bytes. -/
theorem write16_restore (mem : Nat → Nat) (a v x : Nat)
    (h : ∀ y, mem y < 256) :
    write16 (write16 mem a v) a (read16 mem a) x = mem x := by
  have h0 := h a
  have h1 := h (a + 1)
  simp only [write16, read16]
  by_cases e0 : x = a
  · subst e0
    simp
    omega
  · by_cases e1 : x = a + 1
    · subst e1
      rw [if_neg e0, if_pos rfl]
      omega
    · rw [if_neg e0, if_neg e1, if_neg e0, if_neg e1]

/-- C9 (confirmed): for every address, width and component that is
present in the CPU component table, GBASetBreakpoint followed by
GBAClearBreakpoint with the captured opcode restores memory at every
byte to its pre-set value. -/
theorem breakpoint_roundtrip (g : GBA) (component address : Nat)
    (mode : ExecMode)
    (hfound : (g.cpu.components.findIdx? (fun c => c = component)).isSome = true)
    (hmem : ∀ y, g.cpu.memBytes y < 256) :
    ∀ x, (GBAClearBreakpoint (GBASetBreakpoint g component address mode).1
        address mode
        ((GBASetBreakpoint g component address mode).2.getD 0)).cpu.memBytes x =
      g.cpu.memBytes x := by
  intro x
  obtain ⟨idx, hidx⟩ := Option.isSome_iff_exists.mp hfound
  cases mode
  · unfold GBASetBreakpoint
    rw [hidx]
    dsimp only [GBAClearBreakpoint]
    exact write32_restore g.cpu.memBytes address _ x hmem
  · unfold GBASetBreakpoint
    rw [hidx]
    dsimp only [GBAClearBreakpoint]
    exact write16_restore g.cpu.memBytes address _ x hmem

/-- A state whose component table holds the handle 5 and whose memory is
the constant byte 7, used to witness the breakpoint round-trip. -/
def gBkpt : GBA :=
  { GBA.initial with cpu.components := [5], cpu.memBytes := fun _ => 7 }

/-- C9 witness: the round-trip theorem applied at a concrete registered
component, ARM width and address 100. -/
theorem breakpoint_roundtrip_witness :
    (gBkpt.cpu.components.findIdx? (fun c => c = 5)).isSome = true ∧
    (∀ y, gBkpt.cpu.memBytes y < 256) ∧
    (∀ x, (GBAClearBreakpoint (GBASetBreakpoint gBkpt 5 100 ExecMode.arm).1
        100 ExecMode.arm
        ((GBASetBreakpoint gBkpt 5 100 ExecMode.arm).2.getD 0)).cpu.memBytes x =
      gBkpt.cpu.memBytes x) :=
  ⟨by decide, fun y => by show (7 : Nat) < 256; decide,
    breakpoint_roundtrip gBkpt 5 100 ExecMode.arm (by decide)
      (fun y => by show (7 : Nat) < 256; decide)⟩

/-- A timing collaborator that schedules the next event 10 cycles out
and reports no blocked component. -/
def tickConst : GBA → Int → GBA := fun g _ =>
  { g with cpu.nextEvent := 10, cpuBlocked := false }

/-- A SIO collaborator whose next event is 100 cycles out and which
leaves the state unchanged. -/
def sioConst : GBA → Int → GBA × Int := fun g _ => (g, 100)

/-- A halted state whose master-enable register is 1 and whose enable
register is 0. -/
def gHalted : GBA := { GBA.initial with cpu.halted := true, memory.ioIME := 1 }

/-- C3 counterexample: with the CPU halted, next event 10 (non-zero),
IME = 1 and IE = 0, the iteration fast-forwards cycles to 10 and then
leaves the loop — GBAProcessEvents returns even though IME and IE are
not both zero, refuting the claim that it returns only when both are
zero. -/
theorem halted_deadend_cex :
    gHalted.cpu.halted = true ∧
    gHalted.memory.ioIME = 1 ∧
    gHalted.memory.ioIE = 0 ∧
    (processEventsIter tickConst sioConst 1 gHalted).map
        (fun r => (r.2, r.1.cpu.cycles, r.1.cpu.nextEvent)) =
      some (true, 10, 10) ∧
    (GBAProcessEvents tickConst sioConst 1 1 gHalted).map
        (fun g => (g.cpu.cycles, g.cpu.nextEvent, g.memory.ioIME, g.memory.ioIE)) =
      some (10, 10, 1, 0) := by
  decide

/-- C3 (amended): when an iteration of the GBAProcessEvents loop reaches
a non-zero next event with the CPU halted, it fast-forwards cycles
directly to the next event, and it leaves the loop exactly when IME is
zero or IE is zero (continuing to loop only when both are non-zero). -/
theorem halted_fastforward_branch (tick : GBA → Int → GBA)
    (sioStep : GBA → Int → GBA × Int) (fuel : Nat) (gba g1 g2 : GBA)
    (ne1 te ne : Int)
    (hInner : innerTick tick fuel
        { gba with cpu.cycles := 0, cpu.nextEvent := INT_MAX } gba.cpu.cycles =
      some (g1, ne1))
    (hSio : sioStep g1 gba.cpu.cycles = (g2, te))
    (hne : ne = if te < ne1 then te else ne1)
    (hne0 : ne ≠ 0)
    (hHalt : g2.cpu.halted = true) :
    processEventsIter tick sioStep fuel gba =
      some ({ g2 with cpu.nextEvent := ne, cpu.cycles := ne },
        decide (g2.memory.ioIME = 0 ∨ g2.memory.ioIE = 0)) := by
  unfold processEventsIter
  dsimp only
  rw [hInner]
  try dsimp only
  rw [hSio]
  try dsimp only
  rw [← hne, if_neg hne0]
  simp only [hHalt]
  try dsimp only
  by_cases hd : g2.memory.ioIME = 0 ∨ g2.memory.ioIE = 0
  · rw [if_pos hd]
    simp [hd]
  · rw [if_neg hd]
    simp [hd]

/-- The result of the inner timing loop on `gHalted` under `tickConst`. -/
def innerRes : GBA × Int :=
  (innerTick tickConst 1
      { gHalted with cpu.cycles := 0, cpu.nextEvent := INT_MAX }
      gHalted.cpu.cycles).getD (gHalted, 0)

/-- The result of the SIO collaborator on the inner-loop state. -/
def sioRes : GBA × Int := sioConst innerRes.1 gHalted.cpu.cycles

/-- C3 witness: the amended branch theorem applied at the concrete
halted run used by the counterexample. -/
theorem halted_fastforward_branch_witness :
    ((if sioRes.2 < innerRes.2 then sioRes.2 else innerRes.2) ≠ 0) ∧
    sioRes.1.cpu.halted = true ∧
    processEventsIter tickConst sioConst 1 gHalted =
      some ({ sioRes.1 with
          cpu.nextEvent := if sioRes.2 < innerRes.2 then sioRes.2 else innerRes.2,
          cpu.cycles := if sioRes.2 < innerRes.2 then sioRes.2 else innerRes.2 },
        decide (sioRes.1.memory.ioIME = 0 ∨ sioRes.1.memory.ioIE = 0)) :=
  ⟨by decide, by decide,
    halted_fastforward_branch tickConst sioConst 1 gHalted innerRes.1 sioRes.1
      innerRes.2 sioRes.2 (if sioRes.2 < innerRes.2 then sioRes.2 else innerRes.2)
      rfl rfl rfl (by decide) (by decide)⟩
